import Mathlib

/-!
Verification development for the evaluation driver
`nl_reward_model/slf5k/evaluation/2_infer.py` of the Text2Grad repository.

The Python functions `extract_textual_feedback`, `extract_word_scores` and the
data-handling parts of `main` are shallowly embedded below.  Python values
produced by `json.loads` are modelled by `JValue`; Python exceptions are
modelled by `Except PyErr`.  The concrete regular expressions of the source are
embedded as deterministic scanners derived from the exact patterns (the
determinisation of the backtracking behaviour is argued case by case in the
comments).  `json.loads` is modelled by the executable parser `jsonParse`;
JSON numbers are modelled as integers only (no claim exercises float literals),
and string escapes cover the standard JSON escape set.
-/

set_option linter.unusedVariables false

/-- Model of a Python value obtained from `json.loads` (or built by the
script): null, booleans, (integer) numbers, strings, lists and dicts.
Dicts are association lists in insertion order with distinct keys, exactly
as produced by `jsonParse` below. -/
inductive JValue where
  | null
  | bool (b : Bool)
  | num (n : Int)
  | str (s : String)
  | arr (items : List JValue)
  | obj (kvs : List (String × JValue))

/-- Model of the Python exceptions that the embedded code can raise.
`fuelExhausted` is a sentinel of the embedding used by the fuel-indexed
recursion `extractAux`; the termination claim proves it never occurs. -/
inductive PyErr where
  | attributeError
  | valueError
  | typeError
  | keyError
  | indexError
  | fuelExhausted
deriving DecidableEq

/-- First value bound to a key in an association list (keys are unique in
objects produced by the parser, so first = only). Models Python dict lookup. -/
def objFind : List (String × JValue) → String → Option JValue
  | [], _ => none
  | (k, v) :: rest, key => if k = key then some v else objFind rest key

/-- Key membership in a dict, modelling Python `key in dict`. -/
def objHasKey (kvs : List (String × JValue)) (k : String) : Bool :=
  (objFind kvs k).isSome

/-- Insert a key into a dict the way successive Python dict assignment does:
a repeated key keeps its original position and receives the new value. -/
def objInsert : List (String × JValue) → String → JValue → List (String × JValue)
  | [], k, v => [(k, v)]
  | (k0, v0) :: rest, k, v =>
      if k0 = k then (k0, v) :: rest else (k0, v0) :: objInsert rest k v

/-- ASCII whitespace accepted between JSON tokens by `json.loads`. -/
def isJsonWs (c : Char) : Bool :=
  c == ' ' || c == '\t' || c == '\n' || c == '\r'

/-- ASCII whitespace matched by the regex class backslash-s and stripped by
Python `int()` (space, tab, newline, carriage return, vertical tab, form
feed).  Non-ASCII whitespace is outside the scope of the claims. -/
def isPySpace (c : Char) : Bool :=
  isJsonWs c || c == '\x0b' || c == '\x0c'

/-- Decimal digit test. -/
def isDigitChar (c : Char) : Bool :=
  48 ≤ c.toNat && c.toNat ≤ 57

/-- Numeric value of a list of decimal digits. -/
def digitsVal (ds : List Char) : Nat :=
  ds.foldl (fun a c => a * 10 + (c.toNat - 48)) 0

/-- Split a list into its maximal prefix satisfying `p` and the rest. -/
def takeWhileSplit (p : Char → Bool) : List Char → List Char × List Char
  | [] => ([], [])
  | c :: rest =>
      if p c then
        let r := takeWhileSplit p rest
        (c :: r.1, r.2)
      else ([], c :: rest)

/-- Drop leading JSON whitespace. -/
def skipWs : List Char → List Char
  | [] => []
  | c :: rest => if isJsonWs c then skipWs rest else c :: rest

/-- Hexadecimal digit value, for JSON backslash-u escapes. -/
def hexVal (c : Char) : Option Nat :=
  if isDigitChar c then some (c.toNat - 48)
  else if 97 ≤ c.toNat && c.toNat ≤ 102 then some (c.toNat - 87)
  else if 65 ≤ c.toNat && c.toNat ≤ 70 then some (c.toNat - 55)
  else none

/-- Body of a JSON string after the opening quote: returns the decoded
string and the remaining input after the closing quote.  Handles the JSON
escape set; unescaped control characters are rejected (strict mode). -/
def jStrBody : List Char → List Char → Option (String × List Char)
  | [], _ => none
  | c :: rest, acc =>
      if c = '"' then some (String.mk acc.reverse, rest)
      else if c = '\\' then
        match rest with
        | [] => none
        | e :: rest2 =>
            if e = '"' then jStrBody rest2 ('"' :: acc)
            else if e = '\\' then jStrBody rest2 ('\\' :: acc)
            else if e = '/' then jStrBody rest2 ('/' :: acc)
            else if e = 'n' then jStrBody rest2 ('\n' :: acc)
            else if e = 't' then jStrBody rest2 ('\t' :: acc)
            else if e = 'r' then jStrBody rest2 ('\r' :: acc)
            else if e = 'b' then jStrBody rest2 ('\x08' :: acc)
            else if e = 'f' then jStrBody rest2 ('\x0c' :: acc)
            else if e = 'u' then
              match rest2 with
              | h1 :: h2 :: h3 :: h4 :: rest3 =>
                  match hexVal h1, hexVal h2, hexVal h3, hexVal h4 with
                  | some a, some b, some c3, some d =>
                      jStrBody rest3 (Char.ofNat (((a * 16 + b) * 16 + c3) * 16 + d) :: acc)
                  | _, _, _, _ => none
              | _ => none
            else none
      else if c.toNat < 32 then none
      else jStrBody rest (c :: acc)

/-- True when a number continues with a fraction or exponent marker.  Floats
are not modelled (no claim exercises them), so such numbers fail to parse. -/
def numTailBad : List Char → Bool
  | [] => false
  | c :: _ => c == '.' || c == 'e' || c == 'E'

/-- Unsigned part of a JSON number: either a single `0` or a nonzero digit
followed by more digits, per the JSON grammar. -/
def jNumBody : List Char → Option (Nat × List Char)
  | [] => none
  | c :: rest =>
      if c = '0' then
        if numTailBad rest then none else some (0, rest)
      else if isDigitChar c then
        let r := takeWhileSplit isDigitChar (c :: rest)
        if numTailBad r.2 then none else some (digitsVal r.1, r.2)
      else none

/-- A JSON number with optional leading minus. -/
def jNum (cs : List Char) : Option (JValue × List Char) :=
  match cs with
  | '-' :: rest =>
      match jNumBody rest with
      | some (n, r) => some (.num (-(n : Int)), r)
      | none => none
  | _ =>
      match jNumBody cs with
      | some (n, r) => some (.num (n : Int), r)
      | none => none

/-- Match a literal character sequence, returning the remaining input. -/
def stripLit : List Char → List Char → Option (List Char)
  | [], cs => some cs
  | _ :: _, [] => none
  | p :: ps, c :: cs => if c = p then stripLit ps cs else none

/-- Parsing mode of the single fuel-indexed JSON parsing loop: a value, the
elements of an array, or the members of an object. -/
inductive JMode where
  | value
  | arrItems (acc : List JValue)
  | objItems (acc : List (String × JValue))

/-- Fuel-indexed JSON parsing loop.  Structural recursion on the fuel keeps
every equation definitionally reducible, so concrete inputs evaluate by
`rfl`. -/
def jRun : Nat → JMode → List Char → Option (JValue × List Char)
  | 0, _, _ => none
  | fuel + 1, .value, cs =>
      match skipWs cs with
      | [] => none
      | c :: rest =>
          if c = '\x7b' then
            match skipWs rest with
            | '\x7d' :: r2 => some (.obj [], r2)
            | _ => jRun fuel (.objItems []) rest
          else if c = '[' then
            match skipWs rest with
            | ']' :: r2 => some (.arr [], r2)
            | _ => jRun fuel (.arrItems []) rest
          else if c = '"' then
            match jStrBody rest [] with
            | some (s, r) => some (.str s, r)
            | none => none
          else if c = 't' then
            match stripLit ['r', 'u', 'e'] rest with
            | some r => some (.bool true, r)
            | none => none
          else if c = 'f' then
            match stripLit ['a', 'l', 's', 'e'] rest with
            | some r => some (.bool false, r)
            | none => none
          else if c = 'n' then
            match stripLit ['u', 'l', 'l'] rest with
            | some r => some (.null, r)
            | none => none
          else if c = '-' || isDigitChar c then jNum (c :: rest)
          else none
  | fuel + 1, .arrItems acc, cs =>
      match jRun fuel .value cs with
      | none => none
      | some (v, cs1) =>
          match skipWs cs1 with
          | ',' :: cs2 => jRun fuel (.arrItems (acc ++ [v])) cs2
          | ']' :: cs2 => some (.arr (acc ++ [v]), cs2)
          | _ => none
  | fuel + 1, .objItems acc, cs =>
      match skipWs cs with
      | '"' :: cs0 =>
          match jStrBody cs0 [] with
          | none => none
          | some (k, cs1) =>
              match skipWs cs1 with
              | ':' :: cs2 =>
                  match jRun fuel .value cs2 with
                  | none => none
                  | some (v, cs3) =>
                      match skipWs cs3 with
                      | ',' :: cs4 => jRun fuel (.objItems (objInsert acc k v)) cs4
                      | '\x7d' :: cs4 => some (.obj (objInsert acc k v), cs4)
                      | _ => none
              | _ => none
      | _ => none

/-- Model of `json.loads`: parse one JSON value and require the remainder of
the input to be whitespace; `none` models `json.JSONDecodeError`. -/
def jsonParse (s : String) : Option JValue :=
  match jRun (2 * s.length + 2) .value s.data with
  | some (v, rest) => if skipWs rest = [] then some v else none
  | none => none

/-- Characters allowed inside the capture group of the tuple patterns: the
regex class excludes double quote, single quote and comma. -/
def notGrpStop (c : Char) : Bool :=
  !(c == '"' || c == '\x27' || c == ',')

/-- Drop one optional leading quote character, for the optional-quote part of
the tuple patterns. -/
def dropOptQuote : List Char → List Char
  | [] => []
  | c :: rest => if c == '"' || c == '\x27' then rest else c :: rest

/-- Deterministic matcher for the tuple regex of the source,
open-quote? group1 quote? comma spaces sign? digits close, at the head of the
input: pattern 1 of the fallback list (and the stringified-list regex) with
parentheses, pattern 2 with square brackets.  The group class excludes both
quote characters and the comma, so the optional quotes and the greedy group
admit no backtracking: the group stops exactly at the first quote or comma. -/
def matchTupleCore (openC closeC : Char) (cs : List Char) : Option ((String × Int) × List Char) :=
  match cs with
  | [] => none
  | c :: rest =>
      if c = openC then
        let cs1 := dropOptQuote rest
        let g := takeWhileSplit notGrpStop cs1
        if g.1 = [] then none
        else
          match dropOptQuote g.2 with
          | ',' :: cs4 =>
              let cs5 := (takeWhileSplit isPySpace cs4).2
              match cs5 with
              | '-' :: cs6 =>
                  let d := takeWhileSplit isDigitChar cs6
                  if d.1 = [] then none
                  else
                    match d.2 with
                    | c2 :: cs8 =>
                        if c2 = closeC then some ((String.mk g.1, -(digitsVal d.1 : Int)), cs8)
                        else none
                    | [] => none
              | _ =>
                  let d := takeWhileSplit isDigitChar cs5
                  if d.1 = [] then none
                  else
                    match d.2 with
                    | c2 :: cs8 =>
                        if c2 = closeC then some ((String.mk g.1, (digitsVal d.1 : Int)), cs8)
                        else none
                    | [] => none
          | _ => none
      else none

/-- Non-overlapping left-to-right scan, modelling `re.findall`: try a match at
every position, and resume after the end of each match.  Every match of the
matchers used here consumes at least one character, so fuel `length + 1`
is never exhausted. -/
def scanAll (m : List Char → Option ((String × Int) × List Char)) :
    Nat → List Char → List (String × Int)
  | 0, _ => []
  | _ + 1, [] => []
  | fuel + 1, c :: rest =>
      match m (c :: rest) with
      | some (g, after) => g :: scanAll m fuel after
      | none => scanAll m fuel rest

/-- Model of `re.findall` with the parenthesis tuple pattern of the source
(used both on a stringified `word_score_list` and as fallback pattern 1). -/
def findA (s : String) : List (String × Int) :=
  scanAll (matchTupleCore '(' ')') (s.length + 1) s.data

/-- Model of `re.findall` with the square-bracket tuple pattern of the source
(fallback pattern 2). -/
def findB (s : String) : List (String × Int) :=
  scanAll (matchTupleCore '[' ']') (s.length + 1) s.data

/-- Core of the word-group segment of the brace pattern:
quote? group1 quote? spaces comma, returning the captured group and the input
after the comma.  As in `matchTupleCore`, the group class excludes quotes and
commas, so within this segment the greedy scan is deterministic. -/
def grpSegCore (cs : List Char) : Option (String × List Char) :=
  let cs1 := dropOptQuote cs
  let g := takeWhileSplit notGrpStop cs1
  if g.1 = [] then none
  else
    let cs3 := dropOptQuote g.2
    let cs4 := (takeWhileSplit isPySpace cs3).2
    match cs4 with
    | ',' :: cs5 => some (String.mk g.1, cs5)
    | _ => none

/-- The segment spaces quote? group1 quote? spaces comma of the brace
pattern.  Because the group class contains the space character, the regex
engine can backtrack on the length of the leading whitespace run: a longer
run is preferred, but if the tail fails the engine retries with the group
swallowing trailing spaces of the run.  `tryGrpFrom i` tries the segment with
the leading run of length `i`, then `i - 1`, and so on down to `0`. -/
def tryGrpFrom : Nat → List Char → Option (String × List Char)
  | 0, cs => grpSegCore cs
  | i + 1, cs =>
      match grpSegCore (cs.drop (i + 1)) with
      | some r => some r
      | none => tryGrpFrom i cs

/-- Leading-whitespace-then-group segment of the brace pattern, starting from
the maximal whitespace run. -/
def spacesThenGrp (cs : List Char) : Option (String × List Char) :=
  tryGrpFrom (takeWhileSplit isPySpace cs).1.length cs

/-- Closing part of the brace pattern: spaces then the closing brace. -/
def finishBrace (g1 : String) (n : Int) (cs : List Char) :
    Option ((String × Int) × List Char) :=
  let cs1 := (takeWhileSplit isPySpace cs).2
  match cs1 with
  | c :: r => if c = '\x7d' then some ((g1, n), r) else none
  | [] => none

/-- Deterministic matcher for fallback pattern 3 of the source: a brace,
optional-quoted literal `word`, colon, quoted group, comma, optional-quoted
literal `score`, colon, signed digits, closing brace, with the whitespace
runs of the pattern in between. -/
def matchBraceC (cs : List Char) : Option ((String × Int) × List Char) :=
  match cs with
  | [] => none
  | c :: rest =>
      if c = '\x7b' then
        let cs1 := (takeWhileSplit isPySpace rest).2
        match stripLit ['w', 'o', 'r', 'd'] (dropOptQuote cs1) with
        | none => none
        | some cs2 =>
            let cs3 := (takeWhileSplit isPySpace (dropOptQuote cs2)).2
            match cs3 with
            | ':' :: cs4 =>
                match spacesThenGrp cs4 with
                | none => none
                | some (g1, cs5) =>
                    let cs6 := (takeWhileSplit isPySpace cs5).2
                    match stripLit ['s', 'c', 'o', 'r', 'e'] (dropOptQuote cs6) with
                    | none => none
                    | some cs7 =>
                        let cs8 := (takeWhileSplit isPySpace (dropOptQuote cs7)).2
                        match cs8 with
                        | ':' :: cs9 =>
                            let cs10 := (takeWhileSplit isPySpace cs9).2
                            match cs10 with
                            | '-' :: cs11 =>
                                let d := takeWhileSplit isDigitChar cs11
                                if d.1 = [] then none
                                else finishBrace g1 (-(digitsVal d.1 : Int)) d.2
                            | _ =>
                                let d := takeWhileSplit isDigitChar cs10
                                if d.1 = [] then none
                                else finishBrace g1 (digitsVal d.1 : Int) d.2
                        | _ => none
            | _ => none
      else none

/-- Model of `re.findall` with the brace word/score pattern of the source
(fallback pattern 3). -/
def findC (s : String) : List (String × Int) :=
  scanAll matchBraceC (s.length + 1) s.data

/-- Model of `re.search` with the signed-integer pattern: the leftmost
match of minus? digits, taken greedily. -/
def firstIntIn : List Char → Option Int
  | [] => none
  | c :: rest =>
      if isDigitChar c then
        some ((digitsVal (takeWhileSplit isDigitChar (c :: rest)).1 : Int))
      else if c = '-' then
        match rest with
        | d :: _ =>
            if isDigitChar d then
              some (-(digitsVal (takeWhileSplit isDigitChar rest).1 : Int))
            else firstIntIn rest
        | [] => none
      else firstIntIn rest

/-- Matcher at the head of the input for the textual-feedback pattern:
quoted literal `textual_feedback`, colon with whitespace, then a quoted
capture of any characters other than a double quote. -/
def matchTFAt (cs : List Char) : Option String :=
  match stripLit "\"textual_feedback\"".data cs with
  | none => none
  | some cs1 =>
      let cs2 := (takeWhileSplit isPySpace cs1).2
      match cs2 with
      | ':' :: cs3 =>
          let cs4 := (takeWhileSplit isPySpace cs3).2
          match cs4 with
          | '"' :: cs5 =>
              let g := takeWhileSplit (fun c => !(c == '"')) cs5
              match g.2 with
              | '"' :: _ => some (String.mk g.1)
              | _ => none
          | _ => none
      | _ => none

/-- Model of `re.search` with the textual-feedback pattern: leftmost match. -/
def searchTF : List Char → Option String
  | [] => none
  | c :: rest =>
      match matchTFAt (c :: rest) with
      | some g => some g
      | none => searchTF rest

/-- Suffix of the input starting at its first opening brace. -/
def fromFirstLBrace : List Char → Option (List Char)
  | [] => none
  | c :: rest => if c = '\x7b' then some (c :: rest) else fromFirstLBrace rest

/-- Prefix of the input up to and including its last closing brace. -/
def upToLastRBrace : List Char → Option (List Char)
  | [] => none
  | c :: rest =>
      match upToLastRBrace rest with
      | some l => some (c :: l)
      | none => if c = '\x7d' then some [c] else none

/-- Model of `re.search` with the embedded-object pattern brace anything
brace: the greedy match runs from the first opening brace to the last closing
brace of the whole input, provided the latter lies after the former. -/
def braceSpan (cs : List Char) : Option (List Char) :=
  match fromFirstLBrace cs with
  | none => none
  | some [] => none
  | some (c :: tail) =>
      match upToLastRBrace tail with
      | some l => some (c :: l)
      | none => none

/-- Continuation of a digit group accepted by Python `int()`: digits, with
single underscores allowed only between digits. -/
def digitGroupTail : List Char → Bool
  | [] => true
  | c :: rest =>
      if isDigitChar c then digitGroupTail rest
      else if c = '_' then
        match rest with
        | d :: rest2 => isDigitChar d && digitGroupTail rest2
        | [] => false
      else false

/-- A digit group accepted by Python `int()`: starts with a digit, then
digits with single embedded underscores. -/
def digitGroup : List Char → Bool
  | [] => false
  | c :: rest => isDigitChar c && digitGroupTail rest

/-- Numeric value of a digit group, ignoring underscore separators. -/
def digitGroupVal (ds : List Char) : Nat :=
  digitsVal (ds.filter (fun c => !(c == '_')))

/-- Model of Python `int()` applied to a string: optional surrounding
whitespace, an optional sign, then decimal digits with optional single
underscore separators.  (Non-ASCII digits are outside the scope of the
claims.) -/
def pyIntOfStr (s : String) : Option Int :=
  let t1 := (takeWhileSplit isPySpace s.data).2
  let t2 := ((takeWhileSplit isPySpace t1.reverse).2).reverse
  match t2 with
  | '-' :: ds => if digitGroup ds then some (-(digitGroupVal ds : Int)) else none
  | '+' :: ds => if digitGroup ds then some ((digitGroupVal ds : Int)) else none
  | ds => if digitGroup ds then some ((digitGroupVal ds : Int)) else none

/-- Model of Python `int()` on a JSON-derived value: numbers are returned,
booleans become 0/1, strings are parsed (`ValueError` on failure), and
null/list/dict raise `TypeError`. -/
def pyIntCoerce : JValue → Except PyErr Int
  | .num n => .ok n
  | .bool b => .ok (if b then 1 else 0)
  | .str s =>
      match pyIntOfStr s with
      | some n => .ok n
      | none => .error .valueError
  | _ => .error .typeError

/-- Model of Python subscription `v[k]` with a string key: dict lookup with
`KeyError` when absent, `TypeError` on any non-dict JSON value. -/
def getStrKey : JValue → String → Except PyErr JValue
  | .obj kvs, k =>
      match objFind kvs k with
      | some v => .ok v
      | none => .error .keyError
  | _, _ => .error .typeError

/-- Model of Python subscription `v[i]` with a small natural index: list and
string indexing with `IndexError` out of range, `KeyError` on a dict (JSON
dict keys are strings, so an integer key is never present), `TypeError`
otherwise. -/
def getIdxKey : JValue → Nat → Except PyErr JValue
  | .arr xs, i =>
      match xs.get? i with
      | some v => .ok v
      | none => .error .indexError
  | .str s, i =>
      match s.data.get? i with
      | some c => .ok (.str (String.mk [c]))
      | none => .error .indexError
  | .obj _, _ => .error .keyError
  | _, _ => .error .typeError

/-- Model of Python `repr` on JSON-derived values, used by `str()` on
non-string values.  String quoting is simplified (always single quotes, no
escape processing); no claim exercises `repr` of a string that would be
escaped. -/
def pyRepr : JValue → String
  | .null => "None"
  | .bool true => "True"
  | .bool false => "False"
  | .num n => toString n
  | .str s => "\x27" ++ s ++ "\x27"
  | .arr xs => "[" ++ String.intercalate ", " (xs.attach.map (fun x => pyRepr x.1)) ++ "]"
  | .obj kvs =>
      "\x7b" ++
        String.intercalate ", "
          (kvs.attach.map (fun kv => "\x27" ++ kv.1.1 ++ "\x27: " ++ pyRepr kv.1.2)) ++
      "\x7d"
decreasing_by
  · have h := List.sizeOf_lt_of_mem x.2
    simp only [JValue.arr.sizeOf_spec]
    omega
  · have h := List.sizeOf_lt_of_mem kv.2
    have h2 : sizeOf kv.1.2 < sizeOf kv.1 := by
      obtain ⟨a, b⟩ := kv.1
      simp
    simp only [JValue.obj.sizeOf_spec]
    omega

/-- Model of Python `str()` on a JSON-derived value. -/
def pyStr : JValue → String
  | .str s => s
  | v => pyRepr v

/-- Score coercion of the generic fallback scan of `extract_word_scores`:
try `int()`, on `ValueError` search the text for the first signed-integer
substring, defaulting to 0 when there is none. -/
def coerceScoreText (s : String) : Int :=
  match pyIntOfStr s with
  | some n => n
  | none =>
      match firstIntIn s.data with
      | some k => k
      | none => 0

/-- In the generic fallback scan, only string scores are coerced; any other
value is appended unchanged. -/
def scanScoreVal : JValue → JValue
  | .str s => .num (coerceScoreText s)
  | v => v

/-- ASCII lowercase conversion of one character, for the case-insensitive
key search `k.lower() in [...]` (the recognised key names are ASCII). -/
def lowerChar (c : Char) : Char :=
  if 65 ≤ c.toNat && c.toNat ≤ 90 then Char.ofNat (c.toNat + 32) else c

/-- ASCII lowercase conversion of a string. -/
def lowerStr (s : String) : String :=
  String.mk (s.data.map lowerChar)

/-- First key of a dict whose lowercase form is `word` or `token`. -/
def findWordKey (kvs : List (String × JValue)) : Option String :=
  (kvs.find? (fun kv => lowerStr kv.1 == "word" || lowerStr kv.1 == "token")).map Prod.fst

/-- First key of a dict whose lowercase form is `score` or `value`. -/
def findScoreKey (kvs : List (String × JValue)) : Option String :=
  (kvs.find? (fun kv => lowerStr kv.1 == "score" || lowerStr kv.1 == "value")).map Prod.fst

/-- Lookup of a key known to be present (used only where the source has just
found the key in the same dict). -/
def objFindD (kvs : List (String × JValue)) (k : String) : JValue :=
  (objFind kvs k).getD .null

/-- The generic per-item fallback scan of `extract_word_scores` (the loop
after the format warning): 2+-element lists contribute the string form of
their first element and their coerced second element; 2+-key dicts are
scanned case-insensitively for a word-like and a score-like key; anything
else is skipped silently.  This loop raises no exception. -/
def scanFallback : List JValue → List (JValue × JValue)
  | [] => []
  | it :: rest =>
      match it with
      | .arr (x0 :: x1 :: _) => (.str (pyStr x0), scanScoreVal x1) :: scanFallback rest
      | .arr _ => scanFallback rest
      | .obj kvs =>
          if kvs.length ≥ 2 then
            match findWordKey kvs, findScoreKey kvs with
            | some wk, some sk =>
                (.str (pyStr (objFindD kvs wk)), scanScoreVal (objFindD kvs sk)) ::
                  scanFallback rest
            | _, _ => scanFallback rest
          else scanFallback rest
      | _ => scanFallback rest

/-- One item of the dict-shaped comprehension: the pair
`(item["word"], int(item[key]))`, evaluated left to right as in Python. -/
def dictPairOf (key : String) (it : JValue) : Except PyErr (JValue × JValue) :=
  match getStrKey it "word" with
  | .error e => .error e
  | .ok w =>
      match getStrKey it key with
      | .error e => .error e
      | .ok sv =>
          match pyIntCoerce sv with
          | .error e => .error e
          | .ok n => .ok (w, .num n)

/-- The dict-shaped list comprehension of `extract_word_scores`:
`[(item["word"], int(item[key])) for item in word_score_list]` with `key`
either `score` or `Score`.  Only the first item was shape-checked, so later
items can raise `TypeError`/`KeyError`, and `int()` can raise; the
comprehension raises at the first failing item. -/
def mapDictPairs (key : String) : List JValue → Except PyErr (List (JValue × JValue))
  | [] => .ok []
  | it :: rest =>
      match dictPairOf key it with
      | .error e => .error e
      | .ok p =>
          match mapDictPairs key rest with
          | .error e => .error e
          | .ok ps => .ok (p :: ps)

/-- One item of the pair-shaped comprehension: `(str(item[0]), int(item[1]))`,
evaluated left to right as in Python. -/
def listPairOf (it : JValue) : Except PyErr (JValue × JValue) :=
  match getIdxKey it 0 with
  | .error e => .error e
  | .ok w0 =>
      match getIdxKey it 1 with
      | .error e => .error e
      | .ok s1 =>
          match pyIntCoerce s1 with
          | .error e => .error e
          | .ok n => .ok (.str (pyStr w0), .num n)

/-- The pair-shaped list comprehension of `extract_word_scores`:
`[(str(item[0]), int(item[1])) for item in word_score_list]`.  Only the
first item was shape-checked, so subscription and `int()` can raise. -/
def mapListPairs : List JValue → Except PyErr (List (JValue × JValue))
  | [] => .ok []
  | it :: rest =>
      match listPairOf it with
      | .error e => .error e
      | .ok p =>
          match mapListPairs rest with
          | .error e => .error e
          | .ok ps => .ok (p :: ps)

/-- Conversion of regex findall results to result pairs:
`[(word, int(score)) for word, score in tuples]`.  The numeric group matches
minus? digits, so its `int()` conversion never fails and is fused into the
matcher. -/
def toPairs (ps : List (String × Int)) : List (JValue × JValue) :=
  ps.map (fun p => (JValue.str p.1, JValue.num p.2))

/-- Character-list prefix test. -/
def listPrefixOf : List Char → List Char → Bool
  | [], _ => true
  | _ :: _, [] => false
  | p :: ps, c :: cs => p == c && listPrefixOf ps cs

/-- Character-list substring test, for Python `in` on strings. -/
def listInfix (pat : List Char) : List Char → Bool
  | [] => pat.isEmpty
  | c :: rest => listPrefixOf pat (c :: rest) || listInfix pat rest

/-- Model of Python `k in v`: key membership for dicts, element equality for
lists (a string compares equal only to an equal string), substring test for
strings, `TypeError` otherwise. -/
def pyContains (v : JValue) (k : String) : Except PyErr Bool :=
  match v with
  | .obj kvs => .ok (objHasKey kvs k)
  | .arr xs =>
      .ok (xs.any (fun it =>
        match it with
        | .str s => s == k
        | _ => false))
  | .str s => .ok (listInfix k.data s.data)
  | _ => .error .typeError

/-- Shape dispatch of the `try` block when `word_score_list` is a list:
keyed by the shape of the first element only, exactly as in the source; a
first element that is a dict without the recognised key pairs, or that is
neither dict nor list, falls through to the generic scan. -/
def dispatchList (items : List JValue) : Except PyErr (List (JValue × JValue)) :=
  match items with
  | [] => .ok (scanFallback [])
  | it0 :: _ =>
      match it0 with
      | .obj o0 =>
          if objHasKey o0 "word" && objHasKey o0 "score" then
            mapDictPairs "score" items
          else if objHasKey o0 "word" && objHasKey o0 "Score" then
            mapDictPairs "Score" items
          else .ok (scanFallback items)
      | .arr _ => mapListPairs items
      | _ => .ok (scanFallback items)

/-- Shape dispatch of the `try` block on the `word_score_list` value:
strings go through the tuple regex, lists through `dispatchList`, and any
other shape prints the format warning and returns the empty list. -/
def dispatchWsl (wsl : JValue) : Except PyErr (List (JValue × JValue)) :=
  match wsl with
  | .str s => .ok (toPairs (findA s))
  | .arr items => dispatchList items
  | _ => .ok []

/-- The `try` block of `extract_word_scores`, applied to the value parsed
from the response.  `response_dict.get` raises `AttributeError` on non-dict
values; a missing `word_score_list` defaults to the empty list; the value is
then dispatched on its shape. -/
def tryBranch (v : JValue) : Except PyErr (List (JValue × JValue)) :=
  match v with
  | .obj kvs => dispatchWsl ((objFind kvs "word_score_list").getD (.arr []))
  | _ => .error .attributeError

/-- The embedded-object retry at the end of the `except` branch, applied to
the captured brace span: a failed inner parse passes silently; a parsed
object is retried only when it contains the `word_score_list` key (the
membership test itself can raise on non-container values, though the span
always parses to an object). -/
def spanStep (recur : String → Except PyErr (List (JValue × JValue))) (t : String) :
    Except PyErr (List (JValue × JValue)) :=
  match jsonParse t with
  | none => .ok []
  | some jd =>
      match pyContains jd "word_score_list" with
      | .ok true => recur t
      | .ok false => .ok []
      | .error e => .error e

/-- The `except json.JSONDecodeError` branch of `extract_word_scores`,
parametrised by the recursive call used for the embedded-object retry:
the three fallback patterns in order, then the brace-span retry. -/
def exceptScan (recur : String → Except PyErr (List (JValue × JValue))) (s : String) :
    Except PyErr (List (JValue × JValue)) :=
  if findA s = [] then
    if findB s = [] then
      if findC s = [] then
        match braceSpan s.data with
        | none => .ok []
        | some cs => spanStep recur (String.mk cs)
      else .ok (toPairs (findC s))
    else .ok (toPairs (findB s))
  else .ok (toPairs (findA s))

/-- Fuel-indexed form of `extract_word_scores`; the fuel bounds the depth of
the embedded-object retry recursion.  The termination claim shows fuel 2 is
never exhausted, because the retry happens only after the substring parses. -/
def extractAux : Nat → String → Except PyErr (List (JValue × JValue))
  | 0, _ => .error .fuelExhausted
  | fuel + 1, s =>
      match jsonParse s with
      | some v => tryBranch v
      | none => exceptScan (extractAux fuel) s

/-- Model of `extract_word_scores`: parse the response; on success run the
shape dispatch, on `JSONDecodeError` run the regex fallbacks, with the
embedded-object retry given recursion depth 1 (which the termination claim
proves sufficient). -/
def extract_word_scores (s : String) : Except PyErr (List (JValue × JValue)) :=
  match jsonParse s with
  | some v => tryBranch v
  | none => exceptScan (extractAux 1) s

/-- Model of `extract_textual_feedback`: on a successful parse return the
value under `textual_feedback` (empty string when absent; `AttributeError`
via `.get` when the parse is not a dict); on `JSONDecodeError` return the
regex capture, or the empty string when there is no match. -/
def extract_textual_feedback (s : String) : Except PyErr JValue :=
  match jsonParse s with
  | some (.obj kvs) => .ok ((objFind kvs "textual_feedback").getD (.str ""))
  | some _ => .error .attributeError
  | none =>
      match searchTF s.data with
      | some g => .ok (.str g)
      | none => .ok (.str "")

/-- Input record of the dataset: the fields of each sample that the driver
reads (`data["post"]`, `data["generated_summary"]`). -/
structure Sample where
  post : String
  generated_summary : String

/-- Output record accumulated by the driver loop and written to the output
file: exactly the four fields of the dict literal in `main`. -/
structure EvaluationRecord where
  index : Nat
  original_post : String
  generated_summary : String
  model_response : String

/-- JSON form of one output record, as serialised by `json.dump`: an object
with exactly the four keys of the dict literal, in that order. -/
def recordToJson (r : EvaluationRecord) : JValue :=
  .obj [("index", .num r.index),
        ("original_post", .str r.original_post),
        ("generated_summary", .str r.generated_summary),
        ("model_response", .str r.model_response)]

/-- JSON content of the output file: the array of all accumulated records. -/
def outputJson (recs : List EvaluationRecord) : JValue :=
  .arr (recs.map recordToJson)

/-- Key list of a JSON object (empty for other values). -/
def jsonKeys : JValue → List String
  | .obj kvs => kvs.map Prod.fst
  | _ => []

/-- Records of one batch: `zip(batch_data, responses)` with running index
`i + j`, as appended by the inner loop of `main`. -/
def buildBatchRecords : Nat → List Sample → List String → List EvaluationRecord
  | _, [], _ => []
  | _, _ :: _, [] => []
  | i, d :: ds, r :: rs =>
      ⟨i, d.post, d.generated_summary, r⟩ :: buildBatchRecords (i + 1) ds rs

/-- The batch loop of `main`: for each batch start `i` (stepping by the batch
size), slice the batch, obtain one response per prompt from the generation
boundary (modelled as a per-sample stub, per the spec's stubbed-generator
boundary), and append the records.  The per-batch parser diagnostics of the
source only print (and their parser call is wrapped in a catch-all
`except`), so they contribute no state and are omitted.  Fuel bounds the
number of iterations; `length + 1` suffices for any positive batch size. -/
def driverLoop (gen : Sample → String) (bs : Nat) : Nat → Nat → List Sample → List EvaluationRecord
  | 0, _, _ => []
  | _ + 1, _, [] => []
  | fuel + 1, i, l =>
      buildBatchRecords i (l.take bs) ((l.take bs).map gen) ++
        driverLoop gen bs fuel (i + bs) (l.drop bs)

/-- The record-producing part of `main` after sampling: `range(0, n, bs)`
raises `ValueError` on a zero step; otherwise the batch loop accumulates all
records. -/
def runDriver (bs : Nat) (gen : Sample → String) (sampled : List Sample) :
    Except PyErr (List EvaluationRecord) :=
  if bs = 0 then .error .valueError
  else .ok (driverLoop gen bs (sampled.length + 1) 0 sampled)

/-- The sample-size expression of `main`: `min(args.max_samples, len(val_data))`. -/
def sampleCount (maxSamples n : Nat) : Nat := min maxSamples n

/-- Contract of the standard-library sampling routine `random.sample(pop, k)`
(with `k` at most the population size, which `main` guarantees via `min`):
the result selects `k` distinct positions of the population, in some order.
The routine itself is library code, not repository code, so it enters the
embedding only through this contract. -/
def IsSampleOf {α : Type} [Inhabited α] (chosen pop : List α) (k : Nat) : Prop :=
  ∃ idxs : List Nat,
    idxs.Nodup ∧ idxs.length = k ∧ (∀ i ∈ idxs, i < pop.length) ∧
      chosen = idxs.map (fun i => (pop.get? i).getD default)

/-- Dict-dataset branch of the sampling stage:
`[val_data[key] for key in sample_keys]`. -/
def sampledFromDict (kvs : List (String × JValue)) (chosenKeys : List String) : List JValue :=
  chosenKeys.map (fun k => (objFind kvs k).getD .null)

/-- List-dataset branch of the sampling stage:
`[val_data[i] for i in sample_indices]`. -/
def sampledFromList (items : List JValue) (chosenIdx : List Nat) : List JValue :=
  chosenIdx.map (fun i => (items.get? i).getD .null)

/-- The fixed backup path of the output stage of `main`. -/
def backupPath : String := "./evaluation_results_backup.json"

/-- Outcome of the output stage: written to the configured path, written to
the backup path, or logged as failed; there is no exceptional outcome, since
the second attempt sits in a bare `except`. -/
inductive SaveOutcome where
  | savedPrimary (path : String)
  | savedBackup
  | failedBoth
deriving DecidableEq

/-- The output stage of `main`, with the file system modelled by a
success predicate on paths: try the configured path, on failure try the
fixed backup path, on failure report failure - never an exception. -/
def saveResults (writeOk : String → Bool) (outPath : String) : SaveOutcome :=
  if writeOk outPath then .savedPrimary outPath
  else if writeOk backupPath then .savedBackup
  else .failedBoth

/-- The sequence of paths the output stage attempts to write, in order. -/
def saveAttempts (writeOk : String → Bool) (outPath : String) : List String :=
  if writeOk outPath then [outPath] else [outPath, backupPath]

/-- Pointwise specification of the dict-shaped comprehension: the pair takes
the `word` value of the item and the integer coercion of its `key` value. -/
def dictPairSpec (key : String) (it : JValue) (p : JValue × JValue) : Prop :=
  getStrKey it "word" = Except.ok p.1 ∧
  ∃ sv n, getStrKey it key = Except.ok sv ∧ pyIntCoerce sv = Except.ok n ∧
    p.2 = JValue.num n

/-- The condition under which the shape dispatch of `extract_word_scores`
falls through to the generic per-item fallback scan (given that
`word_score_list` is a list): the list is empty, or its first element is
neither a dict carrying the recognised key pairs nor a list. -/
def genericReached : List JValue → Bool
  | [] => true
  | it :: _ =>
      match it with
      | .obj o0 =>
          !((objHasKey o0 "word" && objHasKey o0 "score") ||
            (objHasKey o0 "word" && objHasKey o0 "Score"))
      | .arr _ => false
      | _ => true

/-- True when the embedded-object retry fires on the captured span (or its
membership test raises): the span parses as JSON and contains the
`word_score_list` key. -/
def spanTriggersStep (t : String) : Bool :=
  match jsonParse t with
  | none => false
  | some jd =>
      match pyContains jd "word_score_list" with
      | .ok b => b
      | .error _ => true

/-- True when the embedded-object retry of the `except` branch fires (or its
membership test raises): the brace span exists, parses as JSON, and contains
the `word_score_list` key. -/
def spanTriggers (s : String) : Bool :=
  match braceSpan s.data with
  | none => false
  | some cs => spanTriggersStep (String.mk cs)

/-- Unfolding lemma: on a successful parse, `extract_word_scores` runs the
`try` block on the parsed value. -/
theorem extract_parse_some (s : String) (v : JValue) (h : jsonParse s = some v) :
    extract_word_scores s = tryBranch v := by
  have e : extract_word_scores s =
      (match jsonParse s with
       | some v => tryBranch v
       | none => exceptScan (extractAux 1) s) := rfl
  rw [e, h]

/-- Unfolding lemma: on a parse failure, `extract_word_scores` runs the
`except` branch with recursion depth 1. -/
theorem extract_parse_none (s : String) (h : jsonParse s = none) :
    extract_word_scores s = exceptScan (extractAux 1) s := by
  have e : extract_word_scores s =
      (match jsonParse s with
       | some v => tryBranch v
       | none => exceptScan (extractAux 1) s) := rfl
  rw [e, h]

/-- Unfolding lemma: at any positive fuel, `extractAux` on an input that
parses runs the `try` block, independently of the fuel. -/
theorem extractAux_parse_some (t : String) (v : JValue) (m : Nat)
    (h : jsonParse t = some v) : extractAux (m + 1) t = tryBranch v := by
  have e : extractAux (m + 1) t =
      (match jsonParse t with
       | some v => tryBranch v
       | none => exceptScan (extractAux m) t) := rfl
  rw [e, h]

/-- Reduction lemma for the `try` block on a dict response. -/
theorem tryBranch_obj (kvs : List (String × JValue)) :
    tryBranch (JValue.obj kvs) =
      dispatchWsl ((objFind kvs "word_score_list").getD (JValue.arr [])) := rfl

/-- Shape lemma: a string-valued `word_score_list` goes through the tuple
regex. -/
theorem tryBranch_str (kvs : List (String × JValue)) (t : String)
    (hw : objFind kvs "word_score_list" = some (JValue.str t)) :
    tryBranch (JValue.obj kvs) = Except.ok (toPairs (findA t)) := by
  rw [tryBranch_obj, hw]
  rfl

/-- C4: for every response that is valid JSON whose `word_score_list` value
is itself a string, `extract_word_scores` applies the tuple regex to that
string and returns the captured (word, integer score) pairs. -/
theorem c4_string_wsl (s : String) (kvs : List (String × JValue)) (t : String)
    (hp : jsonParse s = some (JValue.obj kvs))
    (hw : objFind kvs "word_score_list" = some (JValue.str t)) :
    extract_word_scores s = Except.ok (toPairs (findA t)) := by
  rw [extract_parse_some s _ hp, tryBranch_str kvs t hw]

/-- Witness for C4 at the concrete stringified-tuple response of the claim:
the two pairs are recovered in order. -/
theorem c4_witness :
    extract_word_scores "\x7b\"word_score_list\": \"(\\\"ok\\\", 1), (\\\"bad\\\", -1)\"\x7d" =
      Except.ok [(JValue.str "ok", JValue.num 1), (JValue.str "bad", JValue.num (-1))] := by
  have h := c4_string_wsl
    "\x7b\"word_score_list\": \"(\\\"ok\\\", 1), (\\\"bad\\\", -1)\"\x7d"
    [("word_score_list", JValue.str "(\"ok\", 1), (\"bad\", -1)")]
    "(\"ok\", 1), (\"bad\", -1)" rfl rfl
  exact h.trans rfl

/-- C5: when top-level JSON parsing fails, the raw text is scanned against
the three fallback patterns in their fixed order, and the first pattern with
matches determines the result. -/
theorem c5_fallback_order (s : String) (hp : jsonParse s = none) :
    (findA s ≠ [] → extract_word_scores s = Except.ok (toPairs (findA s))) ∧
    (findA s = [] → findB s ≠ [] → extract_word_scores s = Except.ok (toPairs (findB s))) ∧
    (findA s = [] → findB s = [] → findC s ≠ [] →
      extract_word_scores s = Except.ok (toPairs (findC s))) := by
  rw [extract_parse_none s hp]
  refine ⟨?_, ?_, ?_⟩
  · intro hA
    unfold exceptScan
    rw [if_neg hA]
  · intro hA hB
    unfold exceptScan
    rw [if_pos hA, if_neg hB]
  · intro hA hB hC
    unfold exceptScan
    rw [if_pos hA, if_pos hB, if_neg hC]

/-- Witness for C5 at the concrete prose response of the claim: the
bracket-tuple pattern (pattern 2) recovers the embedded pair. -/
theorem c5_witness :
    extract_word_scores "The summary scores are [\"good\", 1] overall." =
      Except.ok [(JValue.str "good", JValue.num 1)] := by
  have h := (c5_fallback_order "The summary scores are [\"good\", 1] overall." rfl).2.1
    rfl (by decide)
  exact h.trans rfl

/-- Unfolding lemma: on a parse yielding a dict, `extract_textual_feedback`
returns the `textual_feedback` value, defaulting to the empty string. -/
theorem tf_parse_obj (s : String) (kvs : List (String × JValue))
    (h : jsonParse s = some (JValue.obj kvs)) :
    extract_textual_feedback s =
      Except.ok ((objFind kvs "textual_feedback").getD (JValue.str "")) := by
  have e : extract_textual_feedback s =
      (match jsonParse s with
       | some (JValue.obj kvs) =>
           Except.ok ((objFind kvs "textual_feedback").getD (JValue.str ""))
       | some _ => Except.error PyErr.attributeError
       | none =>
           match searchTF s.data with
           | some g => Except.ok (JValue.str g)
           | none => Except.ok (JValue.str "")) := rfl
  rw [e, h]

/-- Unfolding lemma: on a parse failure, `extract_textual_feedback` returns
the regex capture, defaulting to the empty string. -/
theorem tf_parse_none (s : String) (h : jsonParse s = none) :
    extract_textual_feedback s = Except.ok (JValue.str ((searchTF s.data).getD "")) := by
  have e : extract_textual_feedback s =
      (match jsonParse s with
       | some (JValue.obj kvs) =>
           Except.ok ((objFind kvs "textual_feedback").getD (JValue.str ""))
       | some _ => Except.error PyErr.attributeError
       | none =>
           match searchTF s.data with
           | some g => Except.ok (JValue.str g)
           | none => Except.ok (JValue.str "")) := rfl
  rw [e, h]
  cases ht : searchTF s.data <;> simp [ht]

/-- C7 (amended): the claim holds when the successful parse yields a JSON
object, and on parse failure the regex fallback is as claimed; but for a
successful parse of a non-object the source raises `AttributeError` instead
of returning the empty string (see the counterexample). -/
theorem c7_amended (s : String) :
    (∀ kvs, jsonParse s = some (JValue.obj kvs) →
        extract_textual_feedback s =
          Except.ok ((objFind kvs "textual_feedback").getD (JValue.str ""))) ∧
    (jsonParse s = none →
        extract_textual_feedback s = Except.ok (JValue.str ((searchTF s.data).getD ""))) :=
  ⟨fun kvs h => tf_parse_obj s kvs h, fun h => tf_parse_none s h⟩

/-- Counterexample to C7 as stated: `[1, 2]` parses successfully and has no
`textual_feedback` key, so the claim requires the empty string, but the
source raises `AttributeError` (`list.get` does not exist). -/
theorem c7_counterexample :
    jsonParse "[1, 2]" = some (JValue.arr [JValue.num 1, JValue.num 2]) ∧
    extract_textual_feedback "[1, 2]" = Except.error PyErr.attributeError :=
  ⟨rfl, rfl⟩

/-- Witness for C7 on both amended branches: a dict response returns the key
value, and a non-JSON response returns the regex capture. -/
theorem c7_witness :
    extract_textual_feedback "\x7b\"textual_feedback\": \"fine\"\x7d" =
      Except.ok (JValue.str "fine") ∧
    extract_textual_feedback "not json \"textual_feedback\": \"oops\" tail" =
      Except.ok (JValue.str "oops") := by
  constructor
  · have h := (c7_amended "\x7b\"textual_feedback\": \"fine\"\x7d").1
      [("textual_feedback", JValue.str "fine")] rfl
    exact h.trans rfl
  · have h := (c7_amended "not json \"textual_feedback\": \"oops\" tail").2 rfl
    exact h.trans rfl

/-- When the retry condition is false, the brace-span step passes silently
and yields the empty list, for any recursion function. -/
theorem spanStep_silent (recur : String → Except PyErr (List (JValue × JValue)))
    (t : String) (h : spanTriggersStep t = false) :
    spanStep recur t = Except.ok [] := by
  have e : spanTriggersStep t =
      (match jsonParse t with
       | none => false
       | some jd =>
           match pyContains jd "word_score_list" with
           | .ok b => b
           | .error _ => true) := rfl
  have e2 : spanStep recur t =
      (match jsonParse t with
       | none => Except.ok []
       | some jd =>
           match pyContains jd "word_score_list" with
           | .ok true => recur t
           | .ok false => Except.ok []
           | .error e => Except.error e) := rfl
  rw [e] at h
  rw [e2]
  cases hjp : jsonParse t with
  | none => rfl
  | some jd =>
      rw [hjp] at h
      have h3 : (match pyContains jd "word_score_list" with
                 | Except.ok b => b
                 | Except.error _ => true) = false := h
      show (match pyContains jd "word_score_list" with
            | Except.ok true => recur t
            | Except.ok false => Except.ok []
            | Except.error e => Except.error e) = Except.ok []
      cases hpc : pyContains jd "word_score_list" with
      | ok b =>
          rw [hpc] at h3
          have h4 : b = false := h3
          rw [h4]
      | error e =>
          rw [hpc] at h3
          have h4 : true = false := h3
          exact absurd h4 (by simp)

/-- Counterexample to C1 as stated: the response `7` is plain valid JSON, so
no parse failure occurs, yet `extract_word_scores` raises `AttributeError`
(`int.get` does not exist) instead of returning a sequence. -/
theorem c1_counterexample :
    jsonParse "7" = some (JValue.num 7) ∧
    extract_word_scores "7" = Except.error PyErr.attributeError :=
  ⟨rfl, rfl⟩

/-- C1 (amended): exceptions can escape both parser functions for certain
valid-JSON responses; but whenever top-level JSON parsing fails, none of the
three fallback patterns match, the embedded-object retry does not fire, and
the feedback regex has no match - in particular for completely unparseable
plain prose - `extract_word_scores` returns the empty sequence and
`extract_textual_feedback` returns the empty string, with no exception. -/
theorem c1_amended (s : String) (hp : jsonParse s = none) (hA : findA s = [])
    (hB : findB s = []) (hC : findC s = []) (hS : spanTriggers s = false)
    (hT : searchTF s.data = none) :
    extract_word_scores s = Except.ok [] ∧
    extract_textual_feedback s = Except.ok (JValue.str "") := by
  constructor
  · rw [extract_parse_none s hp]
    unfold exceptScan
    rw [if_pos hA, if_pos hB, if_pos hC]
    have eT : spanTriggers s =
        (match braceSpan s.data with
         | none => false
         | some cs => spanTriggersStep (String.mk cs)) := rfl
    rw [eT] at hS
    cases hbs : braceSpan s.data with
    | none => rfl
    | some cs =>
        rw [hbs] at hS
        have hS2 : spanTriggersStep (String.mk cs) = false := hS
        show spanStep (extractAux 1) (String.mk cs) = Except.ok []
        exact spanStep_silent (extractAux 1) (String.mk cs) hS2
  · rw [tf_parse_none s hp, hT]
    rfl

/-- Witness for C1 (amended) at a concrete plain-prose response. -/
theorem c1_witness :
    extract_word_scores "This summary is mostly fine but misses the key point." =
      Except.ok [] ∧
    extract_textual_feedback "This summary is mostly fine but misses the key point." =
      Except.ok (JValue.str "") :=
  c1_amended "This summary is mostly fine but misses the key point."
    rfl rfl rfl rfl rfl rfl

/-- Reduction lemma: a list-valued `word_score_list` goes through the
first-element shape dispatch. -/
theorem tryBranch_arr (kvs : List (String × JValue)) (items : List JValue)
    (hw : objFind kvs "word_score_list" = some (JValue.arr items)) :
    tryBranch (JValue.obj kvs) = dispatchList items := by
  rw [tryBranch_obj, hw]
  rfl

/-- Reduction lemma: a first element carrying `word` and `score` keys selects
the `score`-keyed comprehension. -/
theorem dispatchList_score (o0 : List (String × JValue)) (rest : List JValue)
    (hw : objHasKey o0 "word" = true) (hs : objHasKey o0 "score" = true) :
    dispatchList (JValue.obj o0 :: rest) =
      mapDictPairs "score" (JValue.obj o0 :: rest) := by
  have e : dispatchList (JValue.obj o0 :: rest) =
      (if objHasKey o0 "word" && objHasKey o0 "score" then
        mapDictPairs "score" (JValue.obj o0 :: rest)
      else if objHasKey o0 "word" && objHasKey o0 "Score" then
        mapDictPairs "Score" (JValue.obj o0 :: rest)
      else Except.ok (scanFallback (JValue.obj o0 :: rest))) := rfl
  rw [e, hw, hs]
  rfl

/-- Reduction lemma: a first element carrying `word` and `Score` but not
`score` selects the `Score`-keyed comprehension, showing the priority order
of the key detection. -/
theorem dispatchList_cap_score (o0 : List (String × JValue)) (rest : List JValue)
    (hw : objHasKey o0 "word" = true) (hs : objHasKey o0 "score" = false)
    (hS : objHasKey o0 "Score" = true) :
    dispatchList (JValue.obj o0 :: rest) =
      mapDictPairs "Score" (JValue.obj o0 :: rest) := by
  have e : dispatchList (JValue.obj o0 :: rest) =
      (if objHasKey o0 "word" && objHasKey o0 "score" then
        mapDictPairs "score" (JValue.obj o0 :: rest)
      else if objHasKey o0 "word" && objHasKey o0 "Score" then
        mapDictPairs "Score" (JValue.obj o0 :: rest)
      else Except.ok (scanFallback (JValue.obj o0 :: rest))) := rfl
  rw [e, hw, hs, hS]
  rfl

/-- A successful per-item extraction satisfies the pointwise
specification. -/
theorem dictPairOf_spec (key : String) (it : JValue) (p : JValue × JValue)
    (h : dictPairOf key it = Except.ok p) : dictPairSpec key it p := by
  have e : dictPairOf key it =
      (match getStrKey it "word" with
       | .error e => .error e
       | .ok w =>
           match getStrKey it key with
           | .error e => .error e
           | .ok sv =>
               match pyIntCoerce sv with
               | .error e => .error e
               | .ok n => .ok (w, .num n)) := rfl
  rw [e] at h
  cases hw : getStrKey it "word" with
  | error e2 =>
      rw [hw] at h
      exact absurd h (by simp)
  | ok w =>
      rw [hw] at h
      have h2 : (match getStrKey it key with
                 | Except.error e => Except.error e
                 | Except.ok sv =>
                     match pyIntCoerce sv with
                     | Except.error e => Except.error e
                     | Except.ok n =>
                         Except.ok ((w, JValue.num n) : JValue × JValue)) =
          Except.ok p := h
      cases hk : getStrKey it key with
      | error e2 =>
          rw [hk] at h2
          exact absurd h2 (by simp)
      | ok sv =>
          rw [hk] at h2
          have h3 : (match pyIntCoerce sv with
                     | Except.error e => Except.error e
                     | Except.ok n =>
                         Except.ok ((w, JValue.num n) : JValue × JValue)) =
              Except.ok p := h2
          cases hn : pyIntCoerce sv with
          | error e2 =>
              rw [hn] at h3
              exact absurd h3 (by simp)
          | ok n =>
              rw [hn] at h3
              have h4 : Except.ok ((w, JValue.num n) : JValue × JValue) =
                  Except.ok p := h3
              injection h4 with h5
              subst h5
              exact ⟨hw, sv, n, hk, hn, rfl⟩

/-- A successful dict-shaped comprehension returns exactly one pair per item,
in the original order, each satisfying the pointwise specification. -/
theorem mapDictPairs_forall (key : String) :
    ∀ (items : List JValue) (ps : List (JValue × JValue)),
      mapDictPairs key items = Except.ok ps →
      List.Forall₂ (dictPairSpec key) items ps := by
  intro items
  induction items with
  | nil =>
      intro ps h
      have h2 : (Except.ok ([] : List (JValue × JValue)) :
          Except PyErr (List (JValue × JValue))) = Except.ok ps := h
      injection h2 with h3
      subst h3
      exact List.Forall₂.nil
  | cons it rest ih =>
      intro ps h
      have e : mapDictPairs key (it :: rest) =
          (match dictPairOf key it with
           | .error e => .error e
           | .ok p =>
               match mapDictPairs key rest with
               | .error e => .error e
               | .ok ps2 => .ok (p :: ps2)) := rfl
      rw [e] at h
      cases hp : dictPairOf key it with
      | error e2 =>
          rw [hp] at h
          exact absurd h (by simp)
      | ok p =>
          rw [hp] at h
          have h2 : (match mapDictPairs key rest with
                     | Except.error e => Except.error e
                     | Except.ok ps2 => Except.ok (p :: ps2)) = Except.ok ps := h
          cases hr : mapDictPairs key rest with
          | error e2 =>
              rw [hr] at h2
              exact absurd h2 (by simp)
          | ok ps2 =>
              rw [hr] at h2
              have h3 : Except.ok (p :: ps2) = Except.ok ps := h2
              injection h3 with h4
              subst h4
              exact List.Forall₂.cons (dictPairOf_spec key it p hp) (ih ps2 hr)

/-- Counterexample to C2 as stated: a valid-JSON response whose
`word_score_list` is a list of objects each with `word` and `score` keys,
but whose score text `x` has no integer form; the claim requires the pair
list with coerced scores, yet `int("x")` raises `ValueError`, which escapes
(only `JSONDecodeError` is caught). -/
theorem c2_counterexample :
    jsonParse "\x7b\"word_score_list\": [\x7b\"word\": \"a\", \"score\": \"x\"\x7d]\x7d" =
      some (JValue.obj [("word_score_list",
        JValue.arr [JValue.obj [("word", JValue.str "a"), ("score", JValue.str "x")]])]) ∧
    extract_word_scores "\x7b\"word_score_list\": [\x7b\"word\": \"a\", \"score\": \"x\"\x7d]\x7d" =
      Except.error PyErr.valueError :=
  ⟨rfl, rfl⟩

/-- C2 (amended): for a valid-JSON response whose `word_score_list` is a
list whose first element is an object with `word` and `score` keys (or
`word` and `Score`, tried in that priority order), and whose per-item
extraction succeeds - every item an object with the keys present and every
score integer-coercible - `extract_word_scores` returns exactly those
(word, score) pairs in the original list order with every score coerced to
an integer; when some score is not integer-coercible, a `ValueError`
escapes instead (see the counterexample). -/
theorem c2_amended (s : String) (kvs : List (String × JValue))
    (o0 : List (String × JValue)) (rest : List JValue) (ps : List (JValue × JValue))
    (hp : jsonParse s = some (JValue.obj kvs))
    (hw : objFind kvs "word_score_list" = some (JValue.arr (JValue.obj o0 :: rest))) :
    (objHasKey o0 "word" = true → objHasKey o0 "score" = true →
      mapDictPairs "score" (JValue.obj o0 :: rest) = Except.ok ps →
      extract_word_scores s = Except.ok ps ∧
        List.Forall₂ (dictPairSpec "score") (JValue.obj o0 :: rest) ps) ∧
    (objHasKey o0 "word" = true → objHasKey o0 "score" = false →
      objHasKey o0 "Score" = true →
      mapDictPairs "Score" (JValue.obj o0 :: rest) = Except.ok ps →
      extract_word_scores s = Except.ok ps ∧
        List.Forall₂ (dictPairSpec "Score") (JValue.obj o0 :: rest) ps) := by
  constructor
  · intro hk1 hk2 hm
    refine ⟨?_, mapDictPairs_forall "score" _ ps hm⟩
    rw [extract_parse_some s _ hp, tryBranch_arr kvs _ hw,
      dispatchList_score o0 rest hk1 hk2, hm]
  · intro hk1 hk2 hk3 hm
    refine ⟨?_, mapDictPairs_forall "Score" _ ps hm⟩
    rw [extract_parse_some s _ hp, tryBranch_arr kvs _ hw,
      dispatchList_cap_score o0 rest hk1 hk2 hk3, hm]

/-- Witness for C2 (amended) on both key variants: a `score`-keyed response
with a string score coerced to 1, and a `Score`-keyed response. -/
theorem c2_witness :
    extract_word_scores
        "\x7b\"word_score_list\": [\x7b\"word\": \"go\", \"score\": \"1\"\x7d, \x7b\"word\": \"on\", \"score\": 2\x7d]\x7d" =
      Except.ok [(JValue.str "go", JValue.num 1), (JValue.str "on", JValue.num 2)] ∧
    extract_word_scores "\x7b\"word_score_list\": [\x7b\"word\": \"hi\", \"Score\": -1\x7d]\x7d" =
      Except.ok [(JValue.str "hi", JValue.num (-1))] := by
  constructor
  · exact ((c2_amended
      "\x7b\"word_score_list\": [\x7b\"word\": \"go\", \"score\": \"1\"\x7d, \x7b\"word\": \"on\", \"score\": 2\x7d]\x7d"
      [("word_score_list", JValue.arr
        [JValue.obj [("word", JValue.str "go"), ("score", JValue.str "1")],
         JValue.obj [("word", JValue.str "on"), ("score", JValue.num 2)]])]
      [("word", JValue.str "go"), ("score", JValue.str "1")]
      [JValue.obj [("word", JValue.str "on"), ("score", JValue.num 2)]]
      [(JValue.str "go", JValue.num 1), (JValue.str "on", JValue.num 2)]
      rfl rfl).1 rfl rfl rfl).1
  · exact ((c2_amended
      "\x7b\"word_score_list\": [\x7b\"word\": \"hi\", \"Score\": -1\x7d]\x7d"
      [("word_score_list", JValue.arr [JValue.obj [("word", JValue.str "hi"), ("Score", JValue.num (-1))]])]
      [("word", JValue.str "hi"), ("Score", JValue.num (-1))]
      []
      [(JValue.str "hi", JValue.num (-1))]
      rfl rfl).2 rfl rfl rfl rfl).1

/-- Reduction lemma: when the first-element shape matches no direct branch,
the dispatch runs the generic fallback scan. -/
theorem dispatchList_generic (items : List JValue) (hg : genericReached items = true) :
    dispatchList items = Except.ok (scanFallback items) := by
  cases items with
  | nil => rfl
  | cons it0 rest =>
      cases it0 with
      | obj o0 =>
          have hg2 : (!((objHasKey o0 "word" && objHasKey o0 "score") ||
              (objHasKey o0 "word" && objHasKey o0 "Score"))) = true := hg
          rw [Bool.not_eq_true'] at hg2
          have h := hg2
          simp only [Bool.or_eq_false_iff] at h
          obtain ⟨hA, hB⟩ := h
          have e : dispatchList (JValue.obj o0 :: rest) =
              (if objHasKey o0 "word" && objHasKey o0 "score" then
                mapDictPairs "score" (JValue.obj o0 :: rest)
              else if objHasKey o0 "word" && objHasKey o0 "Score" then
                mapDictPairs "Score" (JValue.obj o0 :: rest)
              else Except.ok (scanFallback (JValue.obj o0 :: rest))) := rfl
          rw [e, hA, hB]
          rfl
      | arr xs =>
          have h2 : (false : Bool) = true := hg
          exact absurd h2 (by decide)
      | null => rfl
      | bool b => rfl
      | num n => rfl
      | str t => rfl

/-- Counterexample to C6 as stated: the score of the single extracted word is
the text `score: -1 (negative)`, which contains the embedded signed integer
-1, yet because the first element is a pair-like list the source runs the
direct comprehension, whose bare `int()` raises `ValueError`; no extraction
with the embedded integer happens. -/
theorem c6_counterexample :
    firstIntIn "score: -1 (negative)".data = some (-1) ∧
    extract_word_scores "\x7b\"word_score_list\": [[\"a\", \"score: -1 (negative)\"]]\x7d" =
      Except.error PyErr.valueError :=
  ⟨rfl, rfl⟩

/-- C6 (amended): the attempt-conversion / embedded-integer / default-0 score
coercion applies in the generic fallback scan, which is reached only when
the first element of `word_score_list` matches no direct branch; in the
direct branches a non-numeric text score raises `ValueError` instead (see
the counterexample).  In the generic scan, a pair-like item with text score
contributes the first embedded signed integer, or 0 when there is none. -/
theorem c6_amended (s : String) (kvs : List (String × JValue)) (items : List JValue)
    (hp : jsonParse s = some (JValue.obj kvs))
    (hw : objFind kvs "word_score_list" = some (JValue.arr items))
    (hg : genericReached items = true) :
    extract_word_scores s = Except.ok (scanFallback items) ∧
    (∀ w t rest2, scanFallback (JValue.arr [w, JValue.str t] :: rest2) =
        (JValue.str (pyStr w), JValue.num (coerceScoreText t)) :: scanFallback rest2) ∧
    (∀ t, pyIntOfStr t = none →
        coerceScoreText t = (firstIntIn t.data).getD 0) ∧
    (pyIntOfStr "score: -1 (negative)" = none ∧
      coerceScoreText "score: -1 (negative)" = -1) := by
  refine ⟨?_, ?_, ?_, rfl, rfl⟩
  · rw [extract_parse_some s _ hp, tryBranch_arr kvs _ hw, dispatchList_generic items hg]
  · intro w t rest2
    rfl
  · intro t h
    have e : coerceScoreText t =
        (match pyIntOfStr t with
         | some n => n
         | none =>
             match firstIntIn t.data with
             | some k => k
             | none => 0) := rfl
    rw [e, h]
    show (match firstIntIn t.data with
          | some k => k
          | none => 0) = (firstIntIn t.data).getD 0
    cases hf : firstIntIn t.data <;> rfl

/-- Witness for C6 (amended): a response whose first element is a dict with
`token`/`value` keys reaches the generic scan, and the text score
`score: -1 (negative)` is coerced to -1. -/
theorem c6_witness :
    extract_word_scores
        "\x7b\"word_score_list\": [\x7b\"token\": \"a\", \"value\": \"score: -1 (negative)\"\x7d]\x7d" =
      Except.ok [(JValue.str "a", JValue.num (-1))] := by
  have h := (c6_amended
    "\x7b\"word_score_list\": [\x7b\"token\": \"a\", \"value\": \"score: -1 (negative)\"\x7d]\x7d"
    [("word_score_list", JValue.arr
      [JValue.obj [("token", JValue.str "a"), ("value", JValue.str "score: -1 (negative)")]])]
    [JValue.obj [("token", JValue.str "a"), ("value", JValue.str "score: -1 (negative)")]]
    rfl rfl rfl).1
  rw [h]
  rfl

/-- String subscription never produces the fuel sentinel. -/
theorem getStrKey_ne_fuel (v : JValue) (k : String) :
    getStrKey v k ≠ Except.error PyErr.fuelExhausted := by
  cases v with
  | obj kvs =>
      have e : getStrKey (JValue.obj kvs) k =
          (match objFind kvs k with
           | some v => Except.ok v
           | none => Except.error PyErr.keyError) := rfl
      rw [e]
      cases objFind kvs k <;> simp
  | null => simp [getStrKey]
  | bool b => simp [getStrKey]
  | num n => simp [getStrKey]
  | str t => simp [getStrKey]
  | arr xs => simp [getStrKey]

/-- Index subscription never produces the fuel sentinel. -/
theorem getIdxKey_ne_fuel (v : JValue) (i : Nat) :
    getIdxKey v i ≠ Except.error PyErr.fuelExhausted := by
  cases v with
  | arr xs =>
      have e : getIdxKey (JValue.arr xs) i =
          (match xs.get? i with
           | some v => Except.ok v
           | none => Except.error PyErr.indexError) := rfl
      rw [e]
      cases xs.get? i <;> simp
  | str t =>
      have e : getIdxKey (JValue.str t) i =
          (match t.data.get? i with
           | some c => Except.ok (JValue.str (String.mk [c]))
           | none => Except.error PyErr.indexError) := rfl
      rw [e]
      cases t.data.get? i <;> simp
  | null => simp [getIdxKey]
  | bool b => simp [getIdxKey]
  | num n => simp [getIdxKey]
  | obj kvs => simp [getIdxKey]

/-- Integer coercion never produces the fuel sentinel. -/
theorem pyIntCoerce_ne_fuel (v : JValue) :
    pyIntCoerce v ≠ Except.error PyErr.fuelExhausted := by
  cases v with
  | str t =>
      have e : pyIntCoerce (JValue.str t) =
          (match pyIntOfStr t with
           | some n => Except.ok n
           | none => Except.error PyErr.valueError) := rfl
      rw [e]
      cases pyIntOfStr t <;> simp
  | null => simp [pyIntCoerce]
  | bool b => simp [pyIntCoerce]
  | num n => simp [pyIntCoerce]
  | arr xs => simp [pyIntCoerce]
  | obj kvs => simp [pyIntCoerce]

/-- Membership testing never produces the fuel sentinel. -/
theorem pyContains_ne_fuel (v : JValue) (k : String) (e : PyErr)
    (h : pyContains v k = Except.error e) : e ≠ PyErr.fuelExhausted := by
  cases v with
  | null => injection h with h2; subst h2; simp
  | bool b => injection h with h2; subst h2; simp
  | num n => injection h with h2; subst h2; simp
  | str t => exact absurd h (by simp [pyContains])
  | arr xs => exact absurd h (by simp [pyContains])
  | obj kvs => exact absurd h (by simp [pyContains])

/-- One dict-shaped item extraction never produces the fuel sentinel. -/
theorem dictPairOf_ne_fuel (key : String) (it : JValue) :
    dictPairOf key it ≠ Except.error PyErr.fuelExhausted := by
  intro hcon
  have e : dictPairOf key it =
      (match getStrKey it "word" with
       | .error e => .error e
       | .ok w =>
           match getStrKey it key with
           | .error e => .error e
           | .ok sv =>
               match pyIntCoerce sv with
               | .error e => .error e
               | .ok n => .ok (w, .num n)) := rfl
  rw [e] at hcon
  cases hw : getStrKey it "word" with
  | error e2 =>
      rw [hw] at hcon
      have h2 : (Except.error e2 : Except PyErr (JValue × JValue)) =
          Except.error PyErr.fuelExhausted := hcon
      injection h2 with h3
      subst h3
      exact getStrKey_ne_fuel it "word" hw
  | ok w =>
      rw [hw] at hcon
      have h2 : (match getStrKey it key with
                 | Except.error e => Except.error e
                 | Except.ok sv =>
                     match pyIntCoerce sv with
                     | Except.error e => Except.error e
                     | Except.ok n => Except.ok ((w, JValue.num n) : JValue × JValue)) =
          Except.error PyErr.fuelExhausted := hcon
      cases hk : getStrKey it key with
      | error e2 =>
          rw [hk] at h2
          have h3 : (Except.error e2 : Except PyErr (JValue × JValue)) =
              Except.error PyErr.fuelExhausted := h2
          injection h3 with h4
          subst h4
          exact getStrKey_ne_fuel it key hk
      | ok sv =>
          rw [hk] at h2
          have h3 : (match pyIntCoerce sv with
                     | Except.error e => Except.error e
                     | Except.ok n => Except.ok ((w, JValue.num n) : JValue × JValue)) =
              Except.error PyErr.fuelExhausted := h2
          cases hn : pyIntCoerce sv with
          | error e2 =>
              rw [hn] at h3
              have h4 : (Except.error e2 : Except PyErr (JValue × JValue)) =
                  Except.error PyErr.fuelExhausted := h3
              injection h4 with h5
              subst h5
              exact pyIntCoerce_ne_fuel sv hn
          | ok n =>
              rw [hn] at h3
              exact absurd h3 (by simp)

/-- One pair-shaped item extraction never produces the fuel sentinel. -/
theorem listPairOf_ne_fuel (it : JValue) :
    listPairOf it ≠ Except.error PyErr.fuelExhausted := by
  intro hcon
  have e : listPairOf it =
      (match getIdxKey it 0 with
       | .error e => .error e
       | .ok w0 =>
           match getIdxKey it 1 with
           | .error e => .error e
           | .ok s1 =>
               match pyIntCoerce s1 with
               | .error e => .error e
               | .ok n => .ok (.str (pyStr w0), .num n)) := rfl
  rw [e] at hcon
  cases hw : getIdxKey it 0 with
  | error e2 =>
      rw [hw] at hcon
      have h2 : (Except.error e2 : Except PyErr (JValue × JValue)) =
          Except.error PyErr.fuelExhausted := hcon
      injection h2 with h3
      subst h3
      exact getIdxKey_ne_fuel it 0 hw
  | ok w0 =>
      rw [hw] at hcon
      have h2 : (match getIdxKey it 1 with
                 | Except.error e => Except.error e
                 | Except.ok s1 =>
                     match pyIntCoerce s1 with
                     | Except.error e => Except.error e
                     | Except.ok n =>
                         Except.ok ((JValue.str (pyStr w0), JValue.num n) : JValue × JValue)) =
          Except.error PyErr.fuelExhausted := hcon
      cases hk : getIdxKey it 1 with
      | error e2 =>
          rw [hk] at h2
          have h3 : (Except.error e2 : Except PyErr (JValue × JValue)) =
              Except.error PyErr.fuelExhausted := h2
          injection h3 with h4
          subst h4
          exact getIdxKey_ne_fuel it 1 hk
      | ok s1 =>
          rw [hk] at h2
          have h3 : (match pyIntCoerce s1 with
                     | Except.error e => Except.error e
                     | Except.ok n =>
                         Except.ok ((JValue.str (pyStr w0), JValue.num n) : JValue × JValue)) =
              Except.error PyErr.fuelExhausted := h2
          cases hn : pyIntCoerce s1 with
          | error e2 =>
              rw [hn] at h3
              have h4 : (Except.error e2 : Except PyErr (JValue × JValue)) =
                  Except.error PyErr.fuelExhausted := h3
              injection h4 with h5
              subst h5
              exact pyIntCoerce_ne_fuel s1 hn
          | ok n =>
              rw [hn] at h3
              exact absurd h3 (by simp)

/-- The dict-shaped comprehension never produces the fuel sentinel. -/
theorem mapDictPairs_ne_fuel (key : String) :
    ∀ items, mapDictPairs key items ≠ Except.error PyErr.fuelExhausted := by
  intro items
  induction items with
  | nil => simp [mapDictPairs]
  | cons it rest ih =>
      intro hcon
      have e : mapDictPairs key (it :: rest) =
          (match dictPairOf key it with
           | .error e => .error e
           | .ok p =>
               match mapDictPairs key rest with
               | .error e => .error e
               | .ok ps => .ok (p :: ps)) := rfl
      rw [e] at hcon
      cases hp : dictPairOf key it with
      | error e2 =>
          rw [hp] at hcon
          have h2 : (Except.error e2 : Except PyErr (List (JValue × JValue))) =
              Except.error PyErr.fuelExhausted := hcon
          injection h2 with h3
          subst h3
          exact dictPairOf_ne_fuel key it hp
      | ok p =>
          rw [hp] at hcon
          have h2 : (match mapDictPairs key rest with
                     | Except.error e => Except.error e
                     | Except.ok ps => Except.ok (p :: ps)) =
              Except.error PyErr.fuelExhausted := hcon
          cases hr : mapDictPairs key rest with
          | error e2 =>
              rw [hr] at h2
              have h3 : (Except.error e2 : Except PyErr (List (JValue × JValue))) =
                  Except.error PyErr.fuelExhausted := h2
              injection h3 with h4
              subst h4
              exact ih hr
          | ok ps =>
              rw [hr] at h2
              exact absurd h2 (by simp)

/-- The pair-shaped comprehension never produces the fuel sentinel. -/
theorem mapListPairs_ne_fuel :
    ∀ items, mapListPairs items ≠ Except.error PyErr.fuelExhausted := by
  intro items
  induction items with
  | nil => simp [mapListPairs]
  | cons it rest ih =>
      intro hcon
      have e : mapListPairs (it :: rest) =
          (match listPairOf it with
           | .error e => .error e
           | .ok p =>
               match mapListPairs rest with
               | .error e => .error e
               | .ok ps => .ok (p :: ps)) := rfl
      rw [e] at hcon
      cases hp : listPairOf it with
      | error e2 =>
          rw [hp] at hcon
          have h2 : (Except.error e2 : Except PyErr (List (JValue × JValue))) =
              Except.error PyErr.fuelExhausted := hcon
          injection h2 with h3
          subst h3
          exact listPairOf_ne_fuel it hp
      | ok p =>
          rw [hp] at hcon
          have h2 : (match mapListPairs rest with
                     | Except.error e => Except.error e
                     | Except.ok ps => Except.ok (p :: ps)) =
              Except.error PyErr.fuelExhausted := hcon
          cases hr : mapListPairs rest with
          | error e2 =>
              rw [hr] at h2
              have h3 : (Except.error e2 : Except PyErr (List (JValue × JValue))) =
                  Except.error PyErr.fuelExhausted := h2
              injection h3 with h4
              subst h4
              exact ih hr
          | ok ps =>
              rw [hr] at h2
              exact absurd h2 (by simp)

/-- The list dispatch never produces the fuel sentinel. -/
theorem dispatchList_ne_fuel (items : List JValue) :
    dispatchList items ≠ Except.error PyErr.fuelExhausted := by
  cases items with
  | nil => simp [dispatchList]
  | cons it0 rest =>
      cases it0 with
      | obj o0 =>
          have e : dispatchList (JValue.obj o0 :: rest) =
              (if objHasKey o0 "word" && objHasKey o0 "score" then
                mapDictPairs "score" (JValue.obj o0 :: rest)
              else if objHasKey o0 "word" && objHasKey o0 "Score" then
                mapDictPairs "Score" (JValue.obj o0 :: rest)
              else Except.ok (scanFallback (JValue.obj o0 :: rest))) := rfl
          rw [e]
          split_ifs with h1 h2
          · exact mapDictPairs_ne_fuel "score" _
          · exact mapDictPairs_ne_fuel "Score" _
          · simp
      | arr xs => exact mapListPairs_ne_fuel _
      | null => simp [dispatchList]
      | bool b => simp [dispatchList]
      | num n => simp [dispatchList]
      | str t => simp [dispatchList]

/-- The shape dispatch never produces the fuel sentinel. -/
theorem dispatchWsl_ne_fuel (w : JValue) :
    dispatchWsl w ≠ Except.error PyErr.fuelExhausted := by
  cases w with
  | arr items => exact dispatchList_ne_fuel items
  | null => simp [dispatchWsl]
  | bool b => simp [dispatchWsl]
  | num n => simp [dispatchWsl]
  | str t => simp [dispatchWsl]
  | obj kvs => simp [dispatchWsl]

/-- The `try` block never produces the fuel sentinel. -/
theorem tryBranch_ne_fuel (v : JValue) :
    tryBranch v ≠ Except.error PyErr.fuelExhausted := by
  cases v with
  | obj kvs =>
      rw [tryBranch_obj]
      exact dispatchWsl_ne_fuel _
  | null => simp [tryBranch]
  | bool b => simp [tryBranch]
  | num n => simp [tryBranch]
  | str t => simp [tryBranch]
  | arr xs => simp [tryBranch]

/-- The brace-span retry is insensitive to the fuel of the recursive call,
because the retry happens only after the span parses successfully, and on a
successfully parsing input `extractAux` runs the fuel-free `try` block. -/
theorem spanStep_fuel (t : String) (m k : Nat) :
    spanStep (extractAux (m + 1)) t = spanStep (extractAux (k + 1)) t := by
  have e1 : spanStep (extractAux (m + 1)) t =
      (match jsonParse t with
       | none => Except.ok []
       | some jd =>
           match pyContains jd "word_score_list" with
           | .ok true => extractAux (m + 1) t
           | .ok false => Except.ok []
           | .error e => Except.error e) := rfl
  have e2 : spanStep (extractAux (k + 1)) t =
      (match jsonParse t with
       | none => Except.ok []
       | some jd =>
           match pyContains jd "word_score_list" with
           | .ok true => extractAux (k + 1) t
           | .ok false => Except.ok []
           | .error e => Except.error e) := rfl
  rw [e1, e2]
  cases hjp : jsonParse t with
  | none => rfl
  | some jd =>
      show (match pyContains jd "word_score_list" with
            | Except.ok true => extractAux (m + 1) t
            | Except.ok false => Except.ok []
            | Except.error e => Except.error e) =
          (match pyContains jd "word_score_list" with
           | Except.ok true => extractAux (k + 1) t
           | Except.ok false => Except.ok []
           | Except.error e => Except.error e)
      cases hpc : pyContains jd "word_score_list" with
      | error e => rfl
      | ok b =>
          cases b with
          | false => rfl
          | true =>
              show extractAux (m + 1) t = extractAux (k + 1) t
              rw [extractAux_parse_some t jd m hjp, extractAux_parse_some t jd k hjp]

/-- The brace-span retry at fuel 1 never produces the fuel sentinel. -/
theorem spanStep_ne_fuel (t : String) :
    spanStep (extractAux 1) t ≠ Except.error PyErr.fuelExhausted := by
  intro hcon
  have e : spanStep (extractAux 1) t =
      (match jsonParse t with
       | none => Except.ok []
       | some jd =>
           match pyContains jd "word_score_list" with
           | .ok true => extractAux 1 t
           | .ok false => Except.ok []
           | .error e => Except.error e) := rfl
  rw [e] at hcon
  cases hjp : jsonParse t with
  | none =>
      rw [hjp] at hcon
      exact absurd hcon (by simp)
  | some jd =>
      rw [hjp] at hcon
      have h2 : (match pyContains jd "word_score_list" with
                 | Except.ok true => extractAux 1 t
                 | Except.ok false => Except.ok []
                 | Except.error e => Except.error e) =
          Except.error PyErr.fuelExhausted := hcon
      cases hpc : pyContains jd "word_score_list" with
      | error e2 =>
          rw [hpc] at h2
          have h3 : (Except.error e2 : Except PyErr (List (JValue × JValue))) =
              Except.error PyErr.fuelExhausted := h2
          injection h3 with h4
          exact pyContains_ne_fuel jd "word_score_list" e2 hpc h4
      | ok b =>
          rw [hpc] at h2
          cases b with
          | false => exact absurd h2 (by simp)
          | true =>
              have h3 : extractAux 1 t = Except.error PyErr.fuelExhausted := h2
              rw [extractAux_parse_some t jd 0 hjp] at h3
              exact tryBranch_ne_fuel jd h3

/-- The `except` branch at fuel 1 never produces the fuel sentinel. -/
theorem exceptScan_ne_fuel (s : String) :
    exceptScan (extractAux 1) s ≠ Except.error PyErr.fuelExhausted := by
  unfold exceptScan
  split_ifs with hA hB hC
  · cases hbs : braceSpan s.data with
    | none => simp
    | some cs => exact spanStep_ne_fuel (String.mk cs)
  · simp
  · simp
  · simp

/-- C10: `extract_word_scores` terminates with recursion depth at most one:
the embedded-JSON-substring retry recurses only after a successful strict
parse of that substring, so the recursive call runs the parse-success branch
and cannot recurse again.  Formally, running the fuel-indexed recursion with
any extra fuel computes the same result as `extract_word_scores` (which uses
depth 1 for the retry), and the fuel-exhaustion sentinel never appears. -/
theorem c10_termination (s : String) (n : Nat) :
    extractAux (n + 2) s = extract_word_scores s ∧
    extract_word_scores s ≠ Except.error PyErr.fuelExhausted := by
  constructor
  · have e1 : extractAux (n + 2) s =
        (match jsonParse s with
         | some v => tryBranch v
         | none => exceptScan (extractAux (n + 1)) s) := rfl
    cases hp : jsonParse s with
    | some v => rw [e1, hp, extract_parse_some s v hp]
    | none =>
        rw [e1, hp, extract_parse_none s hp]
        show exceptScan (extractAux (n + 1)) s = exceptScan (extractAux 1) s
        unfold exceptScan
        split_ifs with hA hB hC
        · cases hbs : braceSpan s.data with
          | none => rfl
          | some cs => exact spanStep_fuel (String.mk cs) n 0
        · rfl
        · rfl
        · rfl
  · cases hp : jsonParse s with
    | some v =>
        rw [extract_parse_some s v hp]
        exact tryBranch_ne_fuel v
    | none =>
        rw [extract_parse_none s hp]
        exact exceptScan_ne_fuel s

/-- Unfolding of `List.enumFrom` on a cons cell. -/
theorem enumFrom_cons_own {α : Type} (i : Nat) (d : α) (ds : List α) :
    List.enumFrom i (d :: ds) = (i, d) :: List.enumFrom (i + 1) ds := rfl

/-- Distribution of `List.enumFrom` over an append. -/
theorem enumFrom_append_own {α : Type} :
    ∀ (l1 l2 : List α) (i : Nat),
      List.enumFrom i (l1 ++ l2) =
        List.enumFrom i l1 ++ List.enumFrom (i + l1.length) l2 := by
  intro l1
  induction l1 with
  | nil => intro l2 i; simp
  | cons d ds ih =>
      intro l2 i
      rw [List.cons_append, enumFrom_cons_own, ih l2 (i + 1), enumFrom_cons_own]
      have harith : i + 1 + ds.length = i + (d :: ds).length := by
        simp [List.length_cons]
        omega
      rw [harith]
      rfl

/-- The inner batch loop produces one record per zipped (sample, response)
pair, with the running index. -/
theorem buildBatch_eq (gen : Sample → String) :
    ∀ (ds : List Sample) (i : Nat),
      buildBatchRecords i ds (ds.map gen) =
        (List.enumFrom i ds).map
          (fun p => ⟨p.1, p.2.post, p.2.generated_summary, gen p.2⟩) := by
  intro ds
  induction ds with
  | nil => intro i; rfl
  | cons d rest ih =>
      intro i
      show (⟨i, d.post, d.generated_summary, gen d⟩ : EvaluationRecord) ::
          buildBatchRecords (i + 1) rest (rest.map gen) =
        (List.enumFrom i (d :: rest)).map
          (fun p => ⟨p.1, p.2.post, p.2.generated_summary, gen p.2⟩)
      rw [ih (i + 1)]
      rfl

/-- The batch loop of `main` enumerates the whole sampled list with running
indices, for any sufficient fuel and positive batch size. -/
theorem driverLoop_eq (gen : Sample → String) (bs : Nat) (hbs : 0 < bs) :
    ∀ (fuel : Nat) (i : Nat) (l : List Sample), l.length ≤ fuel →
      driverLoop gen bs fuel i l =
        (List.enumFrom i l).map
          (fun p => ⟨p.1, p.2.post, p.2.generated_summary, gen p.2⟩) := by
  intro fuel
  induction fuel with
  | zero =>
      intro i l hl
      have hnil : l = [] := List.length_eq_zero.mp (Nat.le_zero.mp hl)
      subst hnil
      rfl
  | succ f ih =>
      intro i l hl
      cases l with
      | nil => rfl
      | cons d rest =>
          have e : driverLoop gen bs (f + 1) i (d :: rest) =
              buildBatchRecords i ((d :: rest).take bs) (((d :: rest).take bs).map gen) ++
                driverLoop gen bs f (i + bs) ((d :: rest).drop bs) := rfl
          have hlen : ((d :: rest).drop bs).length ≤ f := by
            rw [List.length_drop]
            simp only [List.length_cons]
            have : rest.length + 1 ≤ f + 1 := by simpa using hl
            omega
          rw [e, buildBatch_eq gen, ih (i + bs) ((d :: rest).drop bs) hlen]
          by_cases hc : bs ≤ (d :: rest).length
          · have htl : ((d :: rest).take bs).length = bs := by
              rw [List.length_take]
              omega
            conv_rhs => rw [← List.take_append_drop bs (d :: rest)]
            rw [enumFrom_append_own, List.map_append, htl]
          · have hdrop : (d :: rest).drop bs = [] :=
              List.drop_eq_nil_of_le (by omega)
            have htake : (d :: rest).take bs = d :: rest :=
              List.take_of_length_le (by omega)
            rw [hdrop, htake]
            simp

/-- C3: for every dataset and every stubbed per-prompt generator, the driver
produces exactly one `EvaluationRecord` per sample, in processed order, with
`index` equal to the position and `model_response` the stubbed string
verbatim; the output file content is the JSON array of exactly those records,
each an object with only the four record keys (no word-score data). -/
theorem c3_driver (bs : Nat) (gen : Sample → String) (sampled : List Sample)
    (hbs : 0 < bs) :
    runDriver bs gen sampled =
      Except.ok ((List.enumFrom 0 sampled).map
        (fun p => ⟨p.1, p.2.post, p.2.generated_summary, gen p.2⟩)) ∧
    ((List.enumFrom 0 sampled).map
        (fun p => (⟨p.1, p.2.post, p.2.generated_summary, gen p.2⟩ : EvaluationRecord))).length =
      sampled.length ∧
    (∀ recs, outputJson recs = JValue.arr (recs.map recordToJson)) ∧
    (∀ r, jsonKeys (recordToJson r) =
      ["index", "original_post", "generated_summary", "model_response"]) := by
  refine ⟨?_, ?_, fun recs => rfl, fun r => rfl⟩
  · unfold runDriver
    rw [if_neg (by omega : ¬ bs = 0),
      driverLoop_eq gen bs hbs (sampled.length + 1) 0 sampled (by omega)]
  · rw [List.length_map, List.enumFrom_length]

/-- Witness for C3: a 2-item dataset with a stubbed generator produces
exactly the two records with verbatim responses and positional indices. -/
theorem c3_witness :
    runDriver 24 (fun smp => if smp.post = "p1" then "r1" else "r2")
        [⟨"p1", "s1"⟩, ⟨"p2", "s2"⟩] =
      Except.ok [⟨0, "p1", "s1", "r1"⟩, ⟨1, "p2", "s2", "r2"⟩] := by
  have h := (c3_driver 24 (fun smp => if smp.post = "p1" then "r1" else "r2")
    [⟨"p1", "s1"⟩, ⟨"p2", "s2"⟩] (by decide)).1
  rw [h]
  rfl

/-- A sampling-contract result over a duplicate-free population has the
requested length, is itself duplicate-free, and draws from the population. -/
theorem isSampleOf_nodup {α : Type} [Inhabited α] (chosen pop : List α) (k : Nat)
    (hpop : pop.Nodup) (h : IsSampleOf chosen pop k) :
    chosen.length = k ∧ chosen.Nodup ∧ ∀ x ∈ chosen, x ∈ pop := by
  obtain ⟨idxs, hnd, hlen, hvalid, heq⟩ := h
  subst heq
  refine ⟨by simp [hlen], ?_, ?_⟩
  · apply List.Nodup.map_on ?_ hnd
    intro i hi j hj hf
    have hi2 : i < pop.length := hvalid i hi
    have hj2 : j < pop.length := hvalid j hj
    rw [List.get?_eq_get hi2, List.get?_eq_get hj2] at hf
    simp only [Option.getD_some] at hf
    have h3 := (List.Nodup.get_inj_iff hpop).mp hf
    exact congrArg Fin.val h3
  · intro x hx
    obtain ⟨i, hi, hfx⟩ := List.mem_map.mp hx
    have hi2 : i < pop.length := hvalid i hi
    rw [List.get?_eq_get hi2, Option.getD_some] at hfx
    exact hfx ▸ List.get_mem pop i hi2

/-- A sampling-contract result over `range n` is the index list itself:
distinct valid indices. -/
theorem isSampleOf_range (chosen : List Nat) (n k : Nat)
    (h : IsSampleOf chosen (List.range n) k) :
    chosen.length = k ∧ chosen.Nodup ∧ ∀ i ∈ chosen, i < n := by
  obtain ⟨idxs, hnd, hlen, hvalid, heq⟩ := h
  have hc : chosen = idxs := by
    rw [heq]
    conv_rhs => rw [← List.map_id idxs]
    apply List.map_congr_left
    intro i hi
    have hi2 : i < n := by
      have := hvalid i hi
      simpa using this
    rw [List.get?_eq_getElem?, List.getElem?_range hi2]
    rfl
  subst hc
  refine ⟨hlen, hnd, ?_⟩
  intro i hi
  have := hvalid i hi
  simpa using this

/-- C8: the driver selects exactly `min(max_samples, dataset size)` samples
without replacement: for a dict dataset the chosen keys are distinct keys of
the dict, for a list dataset the chosen indices are distinct valid indices,
and in both cases the sampled list has exactly `min(max_samples, n)`
entries. -/
theorem c8_sampling (kvs : List (String × JValue)) (items : List JValue)
    (maxS : Nat) (chosenK : List String) (chosenI : List Nat) :
    ((kvs.map Prod.fst).Nodup →
      IsSampleOf chosenK (kvs.map Prod.fst) (sampleCount maxS kvs.length) →
      chosenK.length = min maxS kvs.length ∧ chosenK.Nodup ∧
        (∀ k ∈ chosenK, k ∈ kvs.map Prod.fst) ∧
        (sampledFromDict kvs chosenK).length = min maxS kvs.length) ∧
    (IsSampleOf chosenI (List.range items.length) (sampleCount maxS items.length) →
      chosenI.length = min maxS items.length ∧ chosenI.Nodup ∧
        (∀ i ∈ chosenI, i < items.length) ∧
        (sampledFromList items chosenI).length = min maxS items.length) := by
  constructor
  · intro hpop h
    obtain ⟨hlen, hnd, hmem⟩ := isSampleOf_nodup chosenK (kvs.map Prod.fst)
      (sampleCount maxS kvs.length) hpop h
    have hcount : sampleCount maxS kvs.length = min maxS kvs.length := rfl
    refine ⟨hcount ▸ hlen, hnd, hmem, ?_⟩
    rw [sampledFromDict, List.length_map, hlen, hcount]
  · intro h
    obtain ⟨hlen, hnd, hmem⟩ := isSampleOf_range chosenI items.length
      (sampleCount maxS items.length) h
    have hcount : sampleCount maxS items.length = min maxS items.length := rfl
    refine ⟨hcount ▸ hlen, hnd, hmem, ?_⟩
    rw [sampledFromList, List.length_map, hlen, hcount]

/-- Witness for C8: a 3-entry dict dataset and a 3-entry list dataset with a
maximum of 2, each with a concrete contract-satisfying selection, yield
exactly 2 distinct samples. -/
theorem c8_witness :
    (["a", "b"].length = min 2 3 ∧ (["a", "b"] : List String).Nodup ∧
      (∀ k ∈ (["a", "b"] : List String), k ∈
        ([("a", JValue.num 1), ("b", JValue.num 2), ("c", JValue.num 3)].map Prod.fst)) ∧
      (sampledFromDict [("a", JValue.num 1), ("b", JValue.num 2), ("c", JValue.num 3)]
        ["a", "b"]).length = min 2 3) ∧
    (([2, 0] : List Nat).length = min 2 3 ∧ ([2, 0] : List Nat).Nodup ∧
      (∀ i ∈ ([2, 0] : List Nat), i <
        [JValue.null, JValue.null, JValue.null].length) ∧
      (sampledFromList [JValue.null, JValue.null, JValue.null] [2, 0]).length = min 2 3) := by
  have h := c8_sampling [("a", JValue.num 1), ("b", JValue.num 2), ("c", JValue.num 3)]
    [JValue.null, JValue.null, JValue.null] 2 ["a", "b"] [2, 0]
  constructor
  · exact h.1 (by decide) ⟨[0, 1], by decide, rfl, by decide, rfl⟩
  · exact h.2 ⟨[2, 0], by decide, rfl, by decide, rfl⟩

/-- C9: on a primary write failure the output stage attempts exactly one
retry, against the fixed backup path; the outcome is always one of the three
normal outcomes (written, written to backup, failure logged), never an
exception-like escape, since the retry sits in a bare `except`. -/
theorem c9_write_retry (writeOk : String → Bool) (outPath : String) :
    (writeOk outPath = true → saveAttempts writeOk outPath = [outPath] ∧
      saveResults writeOk outPath = SaveOutcome.savedPrimary outPath) ∧
    (writeOk outPath = false →
      saveAttempts writeOk outPath = [outPath, backupPath] ∧
      (writeOk backupPath = true →
        saveResults writeOk outPath = SaveOutcome.savedBackup) ∧
      (writeOk backupPath = false →
        saveResults writeOk outPath = SaveOutcome.failedBoth)) ∧
    (saveResults writeOk outPath = SaveOutcome.savedPrimary outPath ∨
      saveResults writeOk outPath = SaveOutcome.savedBackup ∨
      saveResults writeOk outPath = SaveOutcome.failedBoth) := by
  refine ⟨?_, ?_, ?_⟩
  · intro h
    constructor
    · rw [saveAttempts, if_pos h]
    · rw [saveResults, if_pos h]
  · intro h
    refine ⟨?_, ?_, ?_⟩
    · rw [saveAttempts, if_neg (by simp [h])]
    · intro hb
      rw [saveResults, if_neg (by simp [h]), if_pos hb]
    · intro hb
      rw [saveResults, if_neg (by simp [h]), if_neg (by simp [hb])]
  · rw [saveResults]
    by_cases h1 : writeOk outPath = true
    · left
      rw [if_pos h1]
    · by_cases h2 : writeOk backupPath = true
      · right; left
        rw [if_neg h1, if_pos h2]
      · right; right
        rw [if_neg h1, if_neg h2]

/-- Witness for C9 with a file system that fails the primary path and
accepts the backup path: both attempts happen in order and the outcome is
the backup save, with no exceptional outcome. -/
theorem c9_witness :
    saveAttempts (fun p => p == backupPath) "../QA_FS_EVAL/0_4800_res_span" =
      ["../QA_FS_EVAL/0_4800_res_span", backupPath] ∧
    saveResults (fun p => p == backupPath) "../QA_FS_EVAL/0_4800_res_span" =
      SaveOutcome.savedBackup := by
  have h := (c9_write_retry (fun p => p == backupPath)
    "../QA_FS_EVAL/0_4800_res_span").2.1 (by decide)
  exact ⟨h.1, h.2.1 (by decide)⟩
